import Mathlib

/-!
Verification of the great-circle distance utility specified for the
neptune-notebooks geospatial walkthrough.  The notebook `GeoQueries.ipynb`
calls the distance routine (`hs.haversine` with a `Unit.MILES` selector) on
hard-coded coordinate pairs; the routine itself is not part of the
repository, so it is modelled here from the specification's component
contract (spec §4.1): haversine formula, fixed Earth radius per unit
(3958.8 miles, 6371.0 km), clamping of the intermediate value before the
inverse trigonometric step, and rejection of out-of-range coordinates with
an `InvalidCoordinate` error.
-/

open Real

/-- Modelled from the spec: a Coordinate is a pair of degrees, latitude and
longitude (spec §3).  The repository only stores such pairs as literals. -/
structure Coordinate where
  lat : ℝ
  lon : ℝ

/-- Modelled from the spec: validity of a Coordinate, latitude in
[-90, 90] and longitude in [-180, 180] (spec §3). -/
def Coordinate.valid (c : Coordinate) : Prop :=
  -90 ≤ c.lat ∧ c.lat ≤ 90 ∧ -180 ≤ c.lon ∧ c.lon ≤ 180

/-- Modelled from the spec: the unit selector of the distance utility,
an enumerated set of miles and kilometers (spec §4.1); the notebook uses
the miles selector. -/
inductive LengthUnit where
  | MILES
  | KILOMETERS

/-- Modelled from the spec: the fixed Earth radius per unit,
3958.8 miles and 6371.0 km (spec §4.1). -/
noncomputable def earthRadius : LengthUnit → ℝ
  | .MILES => 3958.8
  | .KILOMETERS => 6371.0

/-- Degrees to radians. -/
noncomputable def deg2rad (d : ℝ) : ℝ := d * (Real.pi / 180)

/-- Modelled from the spec: the haversine intermediate value of the
spherical law of haversines,
sin²(Δφ/2) + cos φ₁ · cos φ₂ · sin²(Δλ/2) (spec §4.1). -/
noncomputable def hav (p1 p2 : Coordinate) : ℝ :=
  Real.sin ((deg2rad p2.lat - deg2rad p1.lat) / 2) ^ 2 +
    Real.cos (deg2rad p1.lat) * Real.cos (deg2rad p2.lat) *
      Real.sin ((deg2rad p2.lon - deg2rad p1.lon) / 2) ^ 2

/-- Modelled from the spec: clamping of the intermediate value to the valid
domain of the inverse trigonometric step (spec §4.1, §7). -/
noncomputable def clamp01 (x : ℝ) : ℝ := min 1 (max 0 x)

/-- Modelled from the spec: the distance along the Earth's surface,
2 · R · arcsin (√ of the clamped haversine intermediate) in the selected
unit (spec §4.1). -/
noncomputable def haversineDist (p1 p2 : Coordinate) (u : LengthUnit) : ℝ :=
  2 * earthRadius u * Real.arcsin (Real.sqrt (clamp01 (hav p1 p2)))

/-- Modelled from the spec: the error raised on out-of-range input
(spec §4.1, §7). -/
inductive GeoError where
  | InvalidCoordinate

open Classical in
/-- Modelled from the spec: the full distance utility; it validates both
Coordinates and otherwise fails with an InvalidCoordinate error
(spec §4.1, §7). -/
noncomputable def haversine (p1 p2 : Coordinate) (u : LengthUnit) :
    Except GeoError ℝ :=
  if p1.valid ∧ p2.valid then .ok (haversineDist p1 p2 u)
  else .error .InvalidCoordinate

/-- Cosine of the central angle between two Coordinates, as given by the
spherical law of cosines; equals 1 - 2 · hav. -/
noncomputable def cosCentral (p1 p2 : Coordinate) : ℝ :=
  Real.sin (deg2rad p1.lat) * Real.sin (deg2rad p2.lat) +
    Real.cos (deg2rad p1.lat) * Real.cos (deg2rad p2.lat) *
      Real.cos (deg2rad p2.lon - deg2rad p1.lon)

/-- Central angle between two Coordinates, as computed by the distance
utility before scaling by the Earth radius. -/
noncomputable def centralAngle (p1 p2 : Coordinate) : ℝ :=
  2 * Real.arcsin (Real.sqrt (clamp01 (hav p1 p2)))

/-! ### Basic facts about the embedding -/

lemma earthRadius_pos (u : LengthUnit) : 0 < earthRadius u := by
  cases u <;> norm_num [earthRadius]

lemma hav_self (p : Coordinate) : hav p p = 0 := by
  simp [hav]

lemma sin_half_sq (t : ℝ) : Real.sin (t / 2) ^ 2 = 1 / 2 - Real.cos t / 2 := by
  have h := Real.sin_sq_eq_half_sub (t / 2)
  rwa [show 2 * (t / 2) = t by ring] at h

lemma sin_sq_neg_arg (a b : ℝ) :
    Real.sin ((a - b) / 2) ^ 2 = Real.sin ((b - a) / 2) ^ 2 := by
  rw [show (a - b) / 2 = -((b - a) / 2) by ring, Real.sin_neg, neg_sq]

lemma hav_comm (p1 p2 : Coordinate) : hav p1 p2 = hav p2 p1 := by
  unfold hav
  rw [sin_sq_neg_arg, sin_sq_neg_arg (deg2rad p1.lon),
    mul_comm (Real.cos (deg2rad p1.lat)) (Real.cos (deg2rad p2.lat))]

/-- C2: for every valid Coordinate A, the distance from A to itself is
exactly 0, in either unit (so in the real-number model it is neither NaN
nor a negative zero). -/
theorem haversine_self (A : Coordinate) (u : LengthUnit) (h : A.valid) :
    haversine A A u = .ok 0 := by
  unfold haversine
  rw [if_pos ⟨h, h⟩]
  unfold haversineDist
  rw [hav_self]
  simp [clamp01]

/-- Closed-form witness for the C2 theorem at the origin Coordinate. -/
theorem haversine_self_witness :
    haversine ⟨0, 0⟩ ⟨0, 0⟩ .MILES = .ok 0 :=
  haversine_self ⟨0, 0⟩ .MILES (by constructor <;> norm_num)

/-- C3: the distance function is symmetric in its two Coordinates, for
every pair (the validation branch is symmetric as well). -/
theorem haversine_comm (p1 p2 : Coordinate) (u : LengthUnit) :
    haversine p1 p2 u = haversine p2 p1 u := by
  unfold haversine
  by_cases h : p1.valid ∧ p2.valid
  · rw [if_pos h, if_pos ⟨h.2, h.1⟩]
    unfold haversineDist
    rw [hav_comm]
  · rw [if_neg h, if_neg (fun h2 => h ⟨h2.2, h2.1⟩)]

/-- C6: the distance function fails with InvalidCoordinate whenever an
input latitude lies outside [-90, 90] or an input longitude lies outside
[-180, 180]. -/
theorem haversine_invalid (p1 p2 : Coordinate) (u : LengthUnit)
    (h : p1.lat < -90 ∨ 90 < p1.lat ∨ p1.lon < -180 ∨ 180 < p1.lon ∨
      p2.lat < -90 ∨ 90 < p2.lat ∨ p2.lon < -180 ∨ 180 < p2.lon) :
    haversine p1 p2 u = .error .InvalidCoordinate := by
  unfold haversine
  rw [if_neg]
  rintro ⟨⟨ha1, ha2, ha3, ha4⟩, hb1, hb2, hb3, hb4⟩
  rcases h with h | h | h | h | h | h | h | h <;> linarith

/-- Witness for the C6 theorem: latitude 91 raises InvalidCoordinate. -/
theorem haversine_invalid_witness :
    haversine ⟨91, 0⟩ ⟨0, 0⟩ .MILES = .error .InvalidCoordinate :=
  haversine_invalid ⟨91, 0⟩ ⟨0, 0⟩ .MILES (by right; left; norm_num)

/-- C8: for valid Coordinates and either unit selector, the distance
function succeeds and returns a non-negative value. -/
theorem haversine_nonneg (p1 p2 : Coordinate) (u : LengthUnit)
    (h1 : p1.valid) (h2 : p2.valid) :
    haversine p1 p2 u = .ok (haversineDist p1 p2 u) ∧
      0 ≤ haversineDist p1 p2 u := by
  constructor
  · unfold haversine
    rw [if_pos ⟨h1, h2⟩]
  · unfold haversineDist
    have h0 : 0 ≤ Real.arcsin (Real.sqrt (clamp01 (hav p1 p2))) :=
      Real.arcsin_nonneg.2 (Real.sqrt_nonneg _)
    have hr := (earthRadius_pos u).le
    positivity

/-- Witness for the C8 theorem at a concrete pair of valid Coordinates. -/
theorem haversine_nonneg_witness :
    haversine ⟨0, 0⟩ ⟨1, 1⟩ .MILES = .ok (haversineDist ⟨0, 0⟩ ⟨1, 1⟩ .MILES) ∧
      0 ≤ haversineDist ⟨0, 0⟩ ⟨1, 1⟩ .MILES :=
  haversine_nonneg ⟨0, 0⟩ ⟨1, 1⟩ .MILES
    (by constructor <;> norm_num) (by constructor <;> norm_num)

/-- C10: the haversine distance is invariant under negating both
longitudes, which is why the notebook's dataset, storing New York
longitudes with positive sign, reproduces the real-world distances. -/
theorem haversine_neg_lon (lat1 lon1 lat2 lon2 : ℝ) (u : LengthUnit) :
    haversine ⟨lat1, lon1⟩ ⟨lat2, lon2⟩ u =
      haversine ⟨lat1, -lon1⟩ ⟨lat2, -lon2⟩ u := by
  have hhav : hav ⟨lat1, lon1⟩ ⟨lat2, lon2⟩ = hav ⟨lat1, -lon1⟩ ⟨lat2, -lon2⟩ := by
    unfold hav deg2rad
    simp only
    rw [show -lon2 * (Real.pi / 180) - -lon1 * (Real.pi / 180) =
      -(lon2 * (Real.pi / 180) - lon1 * (Real.pi / 180)) by ring,
      show -(lon2 * (Real.pi / 180) - lon1 * (Real.pi / 180)) / 2 =
        -((lon2 * (Real.pi / 180) - lon1 * (Real.pi / 180)) / 2) by ring,
      Real.sin_neg, neg_sq]
  have hvalid : ∀ la lo : ℝ, (Coordinate.mk la lo).valid ↔ (Coordinate.mk la (-lo)).valid := by
    intro la lo
    unfold Coordinate.valid
    simp only
    constructor <;> rintro ⟨h1, h2, h3, h4⟩ <;> exact ⟨h1, h2, by linarith, by linarith⟩
  unfold haversine
  by_cases h : (Coordinate.mk lat1 lon1).valid ∧ (Coordinate.mk lat2 lon2).valid
  · rw [if_pos h, if_pos ⟨(hvalid _ _).1 h.1, (hvalid _ _).1 h.2⟩]
    unfold haversineDist
    rw [hhav]
  · rw [if_neg h, if_neg (fun h2 => h ⟨(hvalid _ _).2 h2.1, (hvalid _ _).2 h2.2⟩)]

/-- C5: the distance in kilometers agrees with the distance in miles
scaled by 1.60934, within a relative tolerance of 0.1 percent, for every
pair of valid Coordinates. -/
theorem haversine_unit_conversion (p1 p2 : Coordinate)
    (_h1 : p1.valid) (_h2 : p2.valid) :
    |haversineDist p1 p2 .KILOMETERS - haversineDist p1 p2 .MILES * 1.60934| ≤
      0.001 * haversineDist p1 p2 .KILOMETERS := by
  unfold haversineDist earthRadius
  have hc : 0 ≤ Real.arcsin (Real.sqrt (clamp01 (hav p1 p2))) :=
    Real.arcsin_nonneg.2 (Real.sqrt_nonneg _)
  set c := Real.arcsin (Real.sqrt (clamp01 (hav p1 p2))) with hcdef
  rw [abs_of_nonpos (by nlinarith)]
  nlinarith

/-! ### Range of the haversine intermediate value -/

lemma deg2rad_mem (lat : ℝ) (h1 : -90 ≤ lat) (h2 : lat ≤ 90) :
    -(Real.pi / 2) ≤ deg2rad lat ∧ deg2rad lat ≤ Real.pi / 2 := by
  unfold deg2rad
  constructor
  · nlinarith [Real.pi_pos, mul_nonneg (by linarith : (0:ℝ) ≤ lat + 90) Real.pi_pos.le]
  · nlinarith [Real.pi_pos, mul_nonneg (by linarith : (0:ℝ) ≤ 90 - lat) Real.pi_pos.le]

lemma cos_deg2rad_nonneg (lat : ℝ) (h1 : -90 ≤ lat) (h2 : lat ≤ 90) :
    0 ≤ Real.cos (deg2rad lat) :=
  Real.cos_nonneg_of_mem_Icc ⟨(deg2rad_mem lat h1 h2).1, (deg2rad_mem lat h1 h2).2⟩

lemma one_sub_two_hav (p1 p2 : Coordinate) :
    1 - 2 * hav p1 p2 = cosCentral p1 p2 := by
  unfold hav cosCentral
  rw [sin_half_sq, sin_half_sq, Real.cos_sub]
  ring

lemma hav_nonneg (p1 p2 : Coordinate) (h1 : p1.valid) (h2 : p2.valid) :
    0 ≤ hav p1 p2 := by
  unfold hav
  have hc1 := cos_deg2rad_nonneg p1.lat h1.1 h1.2.1
  have hc2 := cos_deg2rad_nonneg p2.lat h2.1 h2.2.1
  have := sq_nonneg (Real.sin ((deg2rad p2.lat - deg2rad p1.lat) / 2))
  have := sq_nonneg (Real.sin ((deg2rad p2.lon - deg2rad p1.lon) / 2))
  nlinarith [mul_nonneg (mul_nonneg hc1 hc2)
    (sq_nonneg (Real.sin ((deg2rad p2.lon - deg2rad p1.lon) / 2)))]

lemma cosCentral_ge_neg_one (p1 p2 : Coordinate) (h1 : p1.valid) (h2 : p2.valid) :
    -1 ≤ cosCentral p1 p2 := by
  unfold cosCentral
  have hc1 := cos_deg2rad_nonneg p1.lat h1.1 h1.2.1
  have hc2 := cos_deg2rad_nonneg p2.lat h2.1 h2.2.1
  have hadd := Real.cos_add (deg2rad p1.lat) (deg2rad p2.lat)
  have hle := Real.cos_le_one (deg2rad p1.lat + deg2rad p2.lat)
  have hY := Real.neg_one_le_cos (deg2rad p2.lon - deg2rad p1.lon)
  nlinarith [mul_nonneg (mul_nonneg hc1 hc2)
    (by linarith : 0 ≤ 1 + Real.cos (deg2rad p2.lon - deg2rad p1.lon))]

lemma cosCentral_le_one (p1 p2 : Coordinate) (h1 : p1.valid) (h2 : p2.valid) :
    cosCentral p1 p2 ≤ 1 := by
  have := hav_nonneg p1 p2 h1 h2
  have := one_sub_two_hav p1 p2
  linarith

lemma hav_le_one (p1 p2 : Coordinate) (h1 : p1.valid) (h2 : p2.valid) :
    hav p1 p2 ≤ 1 := by
  have := cosCentral_ge_neg_one p1 p2 h1 h2
  have := one_sub_two_hav p1 p2
  linarith

lemma clamp01_eq (x : ℝ) (h0 : 0 ≤ x) (h1 : x ≤ 1) : clamp01 x = x := by
  unfold clamp01
  rw [max_eq_right h0, min_eq_right h1]

/-- C7: the antipodal pair (0,0), (0,180) returns exactly half the Earth's
circumference (π times the radius), and for all valid Coordinates the
intermediate value is already inside the valid domain of the inverse
trigonometric step, so clamping never changes it and the error branch is
unreachable. -/
theorem haversine_antipodal :
    haversine ⟨0, 0⟩ ⟨0, 180⟩ .MILES = .ok (Real.pi * 3958.8) ∧
      ∀ p1 p2 : Coordinate, p1.valid → p2.valid →
        clamp01 (hav p1 p2) = hav p1 p2 := by
  constructor
  · unfold haversine
    rw [if_pos ⟨by constructor <;> norm_num, by constructor <;> norm_num⟩]
    have h : hav ⟨0, 0⟩ ⟨0, 180⟩ = 1 := by
      unfold hav deg2rad
      simp only
      rw [show ((180:ℝ) * (Real.pi / 180) - 0 * (Real.pi / 180)) / 2 = Real.pi / 2 by ring,
        show (((0:ℝ) * (Real.pi / 180)) - 0 * (Real.pi / 180)) / 2 = 0 by ring]
      rw [Real.sin_zero, Real.sin_pi_div_two]
      norm_num [Real.cos_zero]
    unfold haversineDist earthRadius
    rw [h, clamp01_eq 1 (by norm_num) (by norm_num), Real.sqrt_one, Real.arcsin_one]
    rw [show (2:ℝ) * 3958.8 * (Real.pi / 2) = Real.pi * 3958.8 by ring]
  · intro p1 p2 h1 h2
    exact clamp01_eq _ (hav_nonneg p1 p2 h1 h2) (hav_le_one p1 p2 h1 h2)

/-- Witness for the C7 theorem: the clamping of the intermediate value is
the identity at a concrete pair of valid Coordinates. -/
theorem haversine_antipodal_witness :
    clamp01 (hav ⟨0, 0⟩ ⟨0, 0⟩) = hav ⟨0, 0⟩ ⟨0, 0⟩ :=
  haversine_antipodal.2 ⟨0, 0⟩ ⟨0, 0⟩
    (by constructor <;> norm_num) (by constructor <;> norm_num)

/-! ### Triangle inequality on the sphere -/

lemma cs3 (p1 p2 p3 q1 q2 q3 : ℝ) :
    (p1 * q1 + p2 * q2 + p3 * q3) ^ 2 ≤
      (p1 ^ 2 + p2 ^ 2 + p3 ^ 2) * (q1 ^ 2 + q2 ^ 2 + q3 ^ 2) := by
  nlinarith [sq_nonneg (p1 * q2 - p2 * q1), sq_nonneg (p1 * q3 - p3 * q1),
    sq_nonneg (p2 * q3 - p3 * q2)]

lemma gram (a b c u1 u2 u3 v1 v2 v3 w1 w2 w3 : ℝ)
    (hu : u1 ^ 2 + u2 ^ 2 + u3 ^ 2 = 1) (hv : v1 ^ 2 + v2 ^ 2 + v3 ^ 2 = 1)
    (hw : w1 ^ 2 + w2 ^ 2 + w3 ^ 2 = 1)
    (ha : a = u1 * v1 + u2 * v2 + u3 * v3)
    (hb : b = v1 * w1 + v2 * w2 + v3 * w3)
    (hc : c = u1 * w1 + u2 * w2 + u3 * w3) :
    (c - a * b) ^ 2 ≤ (1 - a ^ 2) * (1 - b ^ 2) := by
  subst ha; subst hb; subst hc
  have hpq : (u1 - (u1 * v1 + u2 * v2 + u3 * v3) * v1) *
        (w1 - (v1 * w1 + v2 * w2 + v3 * w3) * v1) +
      (u2 - (u1 * v1 + u2 * v2 + u3 * v3) * v2) *
        (w2 - (v1 * w1 + v2 * w2 + v3 * w3) * v2) +
      (u3 - (u1 * v1 + u2 * v2 + u3 * v3) * v3) *
        (w3 - (v1 * w1 + v2 * w2 + v3 * w3) * v3) =
      (u1 * w1 + u2 * w2 + u3 * w3) -
        (u1 * v1 + u2 * v2 + u3 * v3) * (v1 * w1 + v2 * w2 + v3 * w3) := by
    linear_combination ((u1 * v1 + u2 * v2 + u3 * v3) *
      (v1 * w1 + v2 * w2 + v3 * w3)) * hv
  have hpp : (u1 - (u1 * v1 + u2 * v2 + u3 * v3) * v1) ^ 2 +
      (u2 - (u1 * v1 + u2 * v2 + u3 * v3) * v2) ^ 2 +
      (u3 - (u1 * v1 + u2 * v2 + u3 * v3) * v3) ^ 2 =
      1 - (u1 * v1 + u2 * v2 + u3 * v3) ^ 2 := by
    linear_combination hu + (u1 * v1 + u2 * v2 + u3 * v3) ^ 2 * hv
  have hqq : (w1 - (v1 * w1 + v2 * w2 + v3 * w3) * v1) ^ 2 +
      (w2 - (v1 * w1 + v2 * w2 + v3 * w3) * v2) ^ 2 +
      (w3 - (v1 * w1 + v2 * w2 + v3 * w3) * v3) ^ 2 =
      1 - (v1 * w1 + v2 * w2 + v3 * w3) ^ 2 := by
    linear_combination hw + (v1 * w1 + v2 * w2 + v3 * w3) ^ 2 * hv
  rw [← hpq, ← hpp, ← hqq]
  exact cs3 _ _ _ _ _ _

lemma arccos_le_of_le {x y : ℝ} (h : x ≤ y) :
    Real.arccos y ≤ Real.arccos x := by
  rw [Real.arccos_eq_pi_div_two_sub_arcsin, Real.arccos_eq_pi_div_two_sub_arcsin]
  exact sub_le_sub_left (Real.monotone_arcsin h) _

lemma arccos_triangle (a b c : ℝ) (ha1 : -1 ≤ a) (ha2 : a ≤ 1)
    (hb1 : -1 ≤ b) (hb2 : b ≤ 1)
    (hg : (c - a * b) ^ 2 ≤ (1 - a ^ 2) * (1 - b ^ 2)) :
    Real.arccos c ≤ Real.arccos a + Real.arccos b := by
  by_cases hS : Real.arccos a + Real.arccos b ≤ Real.pi
  · have h0 : 0 ≤ Real.arccos a + Real.arccos b :=
      add_nonneg (Real.arccos_nonneg a) (Real.arccos_nonneg b)
    have hcos : Real.cos (Real.arccos a + Real.arccos b) =
        a * b - Real.sqrt (1 - a ^ 2) * Real.sqrt (1 - b ^ 2) := by
      rw [Real.cos_add, Real.cos_arccos ha1 ha2, Real.cos_arccos hb1 hb2,
        Real.sin_arccos, Real.sin_arccos]
    have hkey : Real.cos (Real.arccos a + Real.arccos b) ≤ c := by
      rw [hcos]
      have habs : |c - a * b| ≤ Real.sqrt ((1 - a ^ 2) * (1 - b ^ 2)) := by
        rw [← Real.sqrt_sq_eq_abs]
        exact Real.sqrt_le_sqrt hg
      rw [Real.sqrt_mul (by nlinarith : (0:ℝ) ≤ 1 - a ^ 2)] at habs
      have h2 := neg_abs_le (c - a * b)
      linarith
    calc Real.arccos c ≤ Real.arccos (Real.cos (Real.arccos a + Real.arccos b)) :=
          arccos_le_of_le hkey
      _ = Real.arccos a + Real.arccos b := Real.arccos_cos h0 hS
  · push_neg at hS
    linarith [Real.arccos_le_pi c]

lemma sphere_norm (phi lam : ℝ) :
    (Real.cos phi * Real.cos lam) ^ 2 + (Real.cos phi * Real.sin lam) ^ 2 +
      Real.sin phi ^ 2 = 1 := by
  linear_combination (Real.cos phi) ^ 2 * Real.sin_sq_add_cos_sq lam +
    Real.sin_sq_add_cos_sq phi

lemma cosCentral_eq_dot (A B : Coordinate) :
    cosCentral A B =
      (Real.cos (deg2rad A.lat) * Real.cos (deg2rad A.lon)) *
          (Real.cos (deg2rad B.lat) * Real.cos (deg2rad B.lon)) +
        (Real.cos (deg2rad A.lat) * Real.sin (deg2rad A.lon)) *
          (Real.cos (deg2rad B.lat) * Real.sin (deg2rad B.lon)) +
        Real.sin (deg2rad A.lat) * Real.sin (deg2rad B.lat) := by
  unfold cosCentral
  rw [Real.cos_sub]
  ring

lemma gram_spherical (A B C : Coordinate) :
    (cosCentral A C - cosCentral A B * cosCentral B C) ^ 2 ≤
      (1 - cosCentral A B ^ 2) * (1 - cosCentral B C ^ 2) :=
  gram (cosCentral A B) (cosCentral B C) (cosCentral A C)
    (Real.cos (deg2rad A.lat) * Real.cos (deg2rad A.lon))
    (Real.cos (deg2rad A.lat) * Real.sin (deg2rad A.lon))
    (Real.sin (deg2rad A.lat))
    (Real.cos (deg2rad B.lat) * Real.cos (deg2rad B.lon))
    (Real.cos (deg2rad B.lat) * Real.sin (deg2rad B.lon))
    (Real.sin (deg2rad B.lat))
    (Real.cos (deg2rad C.lat) * Real.cos (deg2rad C.lon))
    (Real.cos (deg2rad C.lat) * Real.sin (deg2rad C.lon))
    (Real.sin (deg2rad C.lat))
    (sphere_norm _ _) (sphere_norm _ _) (sphere_norm _ _)
    (cosCentral_eq_dot A B) (cosCentral_eq_dot B C) (cosCentral_eq_dot A C)

lemma haversineDist_eq_angle (p1 p2 : Coordinate) (u : LengthUnit) :
    haversineDist p1 p2 u = earthRadius u * centralAngle p1 p2 := by
  unfold haversineDist centralAngle
  ring

lemma centralAngle_nonneg (p1 p2 : Coordinate) : 0 ≤ centralAngle p1 p2 := by
  unfold centralAngle
  have := Real.arcsin_nonneg.2 (Real.sqrt_nonneg (clamp01 (hav p1 p2)))
  linarith

lemma centralAngle_le_pi (p1 p2 : Coordinate) : centralAngle p1 p2 ≤ Real.pi := by
  unfold centralAngle
  have := Real.arcsin_le_pi_div_two (Real.sqrt (clamp01 (hav p1 p2)))
  linarith

lemma cos_centralAngle (p1 p2 : Coordinate) (h1 : p1.valid) (h2 : p2.valid) :
    Real.cos (centralAngle p1 p2) = cosCentral p1 p2 := by
  unfold centralAngle
  rw [clamp01_eq _ (hav_nonneg p1 p2 h1 h2) (hav_le_one p1 p2 h1 h2)]
  have hs0 : 0 ≤ Real.sqrt (hav p1 p2) := Real.sqrt_nonneg _
  have hs1 : Real.sqrt (hav p1 p2) ≤ 1 := by
    rw [show (1:ℝ) = Real.sqrt 1 by rw [Real.sqrt_one]]
    exact Real.sqrt_le_sqrt (hav_le_one p1 p2 h1 h2)
  rw [Real.cos_two_mul, Real.cos_sq', Real.sin_arcsin (by linarith) hs1,
    Real.sq_sqrt (hav_nonneg p1 p2 h1 h2)]
  linear_combination one_sub_two_hav p1 p2

lemma centralAngle_eq_arccos (p1 p2 : Coordinate) (h1 : p1.valid) (h2 : p2.valid) :
    centralAngle p1 p2 = Real.arccos (cosCentral p1 p2) := by
  rw [← cos_centralAngle p1 p2 h1 h2]
  exact (Real.arccos_cos (centralAngle_nonneg p1 p2) (centralAngle_le_pi p1 p2)).symm

/-- C4: for all valid Coordinates A, B, C and either unit, the distances
satisfy the triangle inequality on the sphere. -/
theorem haversine_triangle (A B C : Coordinate) (u : LengthUnit)
    (hA : A.valid) (hB : B.valid) (hC : C.valid) :
    haversineDist A C u ≤ haversineDist A B u + haversineDist B C u := by
  rw [haversineDist_eq_angle, haversineDist_eq_angle, haversineDist_eq_angle]
  have htri : centralAngle A C ≤ centralAngle A B + centralAngle B C := by
    rw [centralAngle_eq_arccos A C hA hC, centralAngle_eq_arccos A B hA hB,
      centralAngle_eq_arccos B C hB hC]
    exact arccos_triangle _ _ _ (cosCentral_ge_neg_one A B hA hB)
      (cosCentral_le_one A B hA hB) (cosCentral_ge_neg_one B C hB hC)
      (cosCentral_le_one B C hB hC) (gram_spherical A B C)
  have hR := (earthRadius_pos u).le
  nlinarith [mul_le_mul_of_nonneg_left htri hR]

/-- Witness for the C4 theorem at three concrete valid Coordinates. -/
theorem haversine_triangle_witness :
    haversineDist ⟨0, 0⟩ ⟨0, 2⟩ .MILES ≤
      haversineDist ⟨0, 0⟩ ⟨0, 1⟩ .MILES + haversineDist ⟨0, 1⟩ ⟨0, 2⟩ .MILES :=
  haversine_triangle ⟨0, 0⟩ ⟨0, 1⟩ ⟨0, 2⟩ .MILES
    (by constructor <;> norm_num) (by constructor <;> norm_num)
    (by constructor <;> norm_num)

/-! ### Numeric interval bounds for the known-value claims -/

lemma le_arcsin (x : ℝ) (h0 : 0 ≤ x) (h1 : x ≤ 1) : x ≤ Real.arcsin x := by
  rcases eq_or_lt_of_le h0 with h | h
  · rw [← h, Real.arcsin_zero]
  · have hpos : 0 < Real.arcsin x := Real.arcsin_pos.2 h
    have hlt := Real.sin_lt hpos
    rw [Real.sin_arcsin (by linarith) h1] at hlt
    exact hlt.le

lemma sin_sq_even (x : ℝ) : Real.sin |x| ^ 2 = Real.sin x ^ 2 := by
  rcases abs_cases x with ⟨h, _⟩ | ⟨h, _⟩
  · rw [h]
  · rw [h, Real.sin_neg, neg_sq]

lemma cos_even_abs (x : ℝ) : Real.cos |x| = Real.cos x := by
  rcases abs_cases x with ⟨h, _⟩ | ⟨h, _⟩
  · rw [h]
  · rw [h, Real.cos_neg]

lemma sin_sq_bounds (x l u : ℝ) (hl : l ≤ |x|) (hu : |x| ≤ u)
    (h0 : 0 ≤ l) (hu1 : u ≤ 1)
    (hc : 0 ≤ l - u ^ 3 / 6 - u ^ 4 * (5 / 96)) :
    (l - u ^ 3 / 6 - u ^ 4 * (5 / 96)) ^ 2 ≤ Real.sin x ^ 2 ∧
      Real.sin x ^ 2 ≤ (u - l ^ 3 / 6 + u ^ 4 * (5 / 96)) ^ 2 := by
  rw [← sin_sq_even]
  have hx1 : |(|x|)| ≤ 1 := by rw [abs_abs]; exact hu.trans hu1
  have hb := abs_le.1 (Real.sin_bound hx1)
  rw [abs_abs] at hb
  have hy0 : 0 ≤ |x| := abs_nonneg x
  have h3u : |x| ^ 3 ≤ u ^ 3 := pow_le_pow_left₀ hy0 hu 3
  have h3l : l ^ 3 ≤ |x| ^ 3 := pow_le_pow_left₀ h0 hl 3
  have h4u : |x| ^ 4 ≤ u ^ 4 := pow_le_pow_left₀ hy0 hu 4
  have h40 : 0 ≤ |x| ^ 4 := pow_nonneg hy0 4
  have hsl : l - u ^ 3 / 6 - u ^ 4 * (5 / 96) ≤ Real.sin |x| := by
    have := hb.1
    linarith
  have hsu : Real.sin |x| ≤ u - l ^ 3 / 6 + u ^ 4 * (5 / 96) := by
    have := hb.2
    linarith
  exact ⟨pow_le_pow_left₀ hc hsl 2, sq_le_sq' (by linarith) hsu⟩

lemma cos_bounds (x l u : ℝ) (hl : l ≤ |x|) (hu : |x| ≤ u)
    (h0 : 0 ≤ l) (hu1 : u ≤ 1) :
    1 - u ^ 2 / 2 - u ^ 4 * (5 / 96) ≤ Real.cos x ∧
      Real.cos x ≤ 1 - l ^ 2 / 2 + u ^ 4 * (5 / 96) := by
  rw [← cos_even_abs]
  have hx1 : |(|x|)| ≤ 1 := by rw [abs_abs]; exact hu.trans hu1
  have hb := abs_le.1 (Real.cos_bound hx1)
  rw [abs_abs] at hb
  have h2u : |x| ^ 2 ≤ u ^ 2 := pow_le_pow_left₀ (abs_nonneg x) hu 2
  have h2l : l ^ 2 ≤ |x| ^ 2 := pow_le_pow_left₀ h0 hl 2
  have h4u : |x| ^ 4 ≤ u ^ 4 := pow_le_pow_left₀ (abs_nonneg x) hu 4
  have h40 : 0 ≤ |x| ^ 4 := pow_nonneg (abs_nonneg x) 4
  constructor
  · have := hb.1
    linarith
  · have := hb.2
    linarith

lemma mul3_bounds (a b c al au bl bu cl cu : ℝ)
    (hal : al ≤ a) (hau : a ≤ au) (hbl : bl ≤ b) (hbu : b ≤ bu)
    (hcl : cl ≤ c) (hcu : c ≤ cu)
    (hal0 : 0 ≤ al) (hbl0 : 0 ≤ bl) (hcl0 : 0 ≤ cl) :
    al * bl * cl ≤ a * b * c ∧ a * b * c ≤ au * bu * cu := by
  have ha0 : 0 ≤ a := hal0.trans hal
  have hb0 : 0 ≤ b := hbl0.trans hbl
  have hc0 : 0 ≤ c := hcl0.trans hcl
  constructor
  · exact mul_le_mul (mul_le_mul hal hbl hbl0 ha0) hcl hcl0 (mul_nonneg ha0 hb0)
  · exact mul_le_mul (mul_le_mul hau hbu hb0 (ha0.trans hau)) hcu hc0
      (mul_nonneg (ha0.trans hau) (hb0.trans hbu))

lemma dist_of_hav_bounds (p1 p2 : Coordinate) (u : LengthUnit)
    (dl du ql qu au : ℝ)
    (hdl : dl ≤ hav p1 p2) (hdu : hav p1 p2 ≤ du)
    (h0 : 0 ≤ dl) (h1 : du ≤ 1)
    (hql0 : 0 ≤ ql) (hql : ql ^ 2 ≤ dl)
    (hqu0 : 0 ≤ qu) (hqu : du ≤ qu ^ 2)
    (hau0 : 0 ≤ au) (hau1 : au ≤ 1)
    (hqau : qu ≤ au - au ^ 3 / 6 - au ^ 4 * (5 / 96)) :
    2 * earthRadius u * ql ≤ haversineDist p1 p2 u ∧
      haversineDist p1 p2 u ≤ 2 * earthRadius u * au := by
  have hclamp : clamp01 (hav p1 p2) = hav p1 p2 :=
    clamp01_eq _ (h0.trans hdl) (hdu.trans h1)
  unfold haversineDist
  rw [hclamp]
  have hs0 : 0 ≤ Real.sqrt (hav p1 p2) := Real.sqrt_nonneg _
  have hsl2 : ql ≤ Real.sqrt (hav p1 p2) := by
    calc ql = Real.sqrt (ql ^ 2) := (Real.sqrt_sq hql0).symm
      _ ≤ Real.sqrt (hav p1 p2) := Real.sqrt_le_sqrt (hql.trans hdl)
  have hsu2 : Real.sqrt (hav p1 p2) ≤ qu := by
    calc Real.sqrt (hav p1 p2) ≤ Real.sqrt (qu ^ 2) := Real.sqrt_le_sqrt (hdu.trans hqu)
      _ = qu := Real.sqrt_sq hqu0
  have hsinau : qu ≤ Real.sin au := by
    have hb := (abs_le.1 (Real.sin_bound (by rw [abs_of_nonneg hau0]; exact hau1))).1
    rw [abs_of_nonneg hau0] at hb
    linarith
  have hs1 : Real.sqrt (hav p1 p2) ≤ 1 := by
    have := Real.sin_le_one au
    linarith
  have harcl : ql ≤ Real.arcsin (Real.sqrt (hav p1 p2)) :=
    hsl2.trans (le_arcsin _ hs0 hs1)
  have harcu : Real.arcsin (Real.sqrt (hav p1 p2)) ≤ au := by
    calc Real.arcsin (Real.sqrt (hav p1 p2)) ≤ Real.arcsin (Real.sin au) :=
          Real.monotone_arcsin (hsu2.trans hsinau)
      _ = au := Real.arcsin_sin (by linarith [Real.pi_pos]) (by linarith [Real.pi_gt_three])
  have hR : 0 ≤ 2 * earthRadius u := by linarith [earthRadius_pos u]
  exact ⟨mul_le_mul_of_nonneg_left harcl hR, mul_le_mul_of_nonneg_left harcu hR⟩

/-- Witness for the C5 theorem at a concrete pair of valid Coordinates. -/
theorem haversine_unit_conversion_witness :
    |haversineDist ⟨0, 0⟩ ⟨1, 1⟩ .KILOMETERS -
        haversineDist ⟨0, 0⟩ ⟨1, 1⟩ .MILES * 1.60934| ≤
      0.001 * haversineDist ⟨0, 0⟩ ⟨1, 1⟩ .KILOMETERS :=
  haversine_unit_conversion ⟨0, 0⟩ ⟨1, 1⟩
    (by constructor <;> norm_num) (by constructor <;> norm_num)

/-! ### Known-value claim for the nearest store -/

lemma hav_store1_bounds :
    (3.8427e-10 : ℝ) ≤ hav ⟨40.7128, -74.0060⟩ ⟨40.7111, -74.0080⟩ ∧
      hav ⟨40.7128, -74.0060⟩ ⟨40.7111, -74.0080⟩ ≤ 3.9649e-10 := by
  have hpi1 : (3.141592 : ℝ) < Real.pi := Real.pi_gt_d6
  have hpi2 : Real.pi < 3.141593 := Real.pi_lt_d6
  have hrw : hav ⟨40.7128, -74.0060⟩ ⟨40.7111, -74.0080⟩ =
      Real.sin ((40.7111 * (Real.pi / 180) - 40.7128 * (Real.pi / 180)) / 2) ^ 2 +
        Real.cos (40.7128 * (Real.pi / 180)) * Real.cos (40.7111 * (Real.pi / 180)) *
          Real.sin (((-74.0080) * (Real.pi / 180) - (-74.0060) * (Real.pi / 180)) / 2) ^ 2 := rfl
  have hxa_neg : (40.7111 * (Real.pi / 180) - 40.7128 * (Real.pi / 180)) / 2 ≤ 0 := by
    linarith only [hpi1]
  have hxa_l : (1.48352e-5 : ℝ) ≤
      |(40.7111 * (Real.pi / 180) - 40.7128 * (Real.pi / 180)) / 2| := by
    rw [abs_of_nonpos hxa_neg]; linarith only [hpi1]
  have hxa_u : |(40.7111 * (Real.pi / 180) - 40.7128 * (Real.pi / 180)) / 2| ≤ 1.48354e-5 := by
    rw [abs_of_nonpos hxa_neg]; linarith only [hpi2]
  obtain ⟨hsa_l, hsa_u⟩ := sin_sq_bounds _ 1.48352e-5 1.48354e-5 hxa_l hxa_u
    (by norm_num) (by norm_num) (by norm_num)
  have hSa_l : (2.2008e-10 : ℝ) ≤
      Real.sin ((40.7111 * (Real.pi / 180) - 40.7128 * (Real.pi / 180)) / 2) ^ 2 :=
    le_trans (by norm_num) hsa_l
  have hSa_u : Real.sin ((40.7111 * (Real.pi / 180) - 40.7128 * (Real.pi / 180)) / 2) ^ 2 ≤
      2.2009e-10 := le_trans hsa_u (by norm_num)
  have hphi1_0 : (0 : ℝ) ≤ 40.7128 * (Real.pi / 180) := by linarith only [hpi1]
  have hphi1_l : (0.710572 : ℝ) ≤ |40.7128 * (Real.pi / 180)| := by
    rw [abs_of_nonneg hphi1_0]; linarith only [hpi1]
  have hphi1_u : |40.7128 * (Real.pi / 180)| ≤ 0.710573 := by
    rw [abs_of_nonneg hphi1_0]; linarith only [hpi2]
  obtain ⟨hc1_l, hc1_u⟩ := cos_bounds _ 0.710572 0.710573 hphi1_l hphi1_u
    (by norm_num) (by norm_num)
  have hC1_l : (0.7342 : ℝ) ≤ Real.cos (40.7128 * (Real.pi / 180)) :=
    le_trans (by norm_num) hc1_l
  have hC1_u : Real.cos (40.7128 * (Real.pi / 180)) ≤ 0.7609 :=
    le_trans hc1_u (by norm_num)
  have hphi2_0 : (0 : ℝ) ≤ 40.7111 * (Real.pi / 180) := by linarith only [hpi1]
  have hphi2_l : (0.710542 : ℝ) ≤ |40.7111 * (Real.pi / 180)| := by
    rw [abs_of_nonneg hphi2_0]; linarith only [hpi1]
  have hphi2_u : |40.7111 * (Real.pi / 180)| ≤ 0.710543 := by
    rw [abs_of_nonneg hphi2_0]; linarith only [hpi2]
  obtain ⟨hc2_l, hc2_u⟩ := cos_bounds _ 0.710542 0.710543 hphi2_l hphi2_u
    (by norm_num) (by norm_num)
  have hC2_l : (0.7342 : ℝ) ≤ Real.cos (40.7111 * (Real.pi / 180)) :=
    le_trans (by norm_num) hc2_l
  have hC2_u : Real.cos (40.7111 * (Real.pi / 180)) ≤ 0.7609 :=
    le_trans hc2_u (by norm_num)
  have hxb_neg : ((-74.0080) * (Real.pi / 180) - (-74.0060) * (Real.pi / 180)) / 2 ≤ 0 := by
    linarith only [hpi1]
  have hxb_l : (1.74532e-5 : ℝ) ≤
      |((-74.0080) * (Real.pi / 180) - (-74.0060) * (Real.pi / 180)) / 2| := by
    rw [abs_of_nonpos hxb_neg]; linarith only [hpi1]
  have hxb_u : |((-74.0080) * (Real.pi / 180) - (-74.0060) * (Real.pi / 180)) / 2| ≤
      1.74534e-5 := by
    rw [abs_of_nonpos hxb_neg]; linarith only [hpi2]
  obtain ⟨hsb_l, hsb_u⟩ := sin_sq_bounds _ 1.74532e-5 1.74534e-5 hxb_l hxb_u
    (by norm_num) (by norm_num) (by norm_num)
  have hSb_l : (3.0461e-10 : ℝ) ≤
      Real.sin (((-74.0080) * (Real.pi / 180) - (-74.0060) * (Real.pi / 180)) / 2) ^ 2 :=
    le_trans (by norm_num) hsb_l
  have hSb_u : Real.sin (((-74.0080) * (Real.pi / 180) - (-74.0060) * (Real.pi / 180)) / 2) ^ 2 ≤
      3.0463e-10 := le_trans hsb_u (by norm_num)
  obtain ⟨hT_l, hT_u⟩ := mul3_bounds
    (Real.cos (40.7128 * (Real.pi / 180))) (Real.cos (40.7111 * (Real.pi / 180)))
    (Real.sin (((-74.0080) * (Real.pi / 180) - (-74.0060) * (Real.pi / 180)) / 2) ^ 2)
    0.7342 0.7609 0.7342 0.7609 3.0461e-10 3.0463e-10
    hC1_l hC1_u hC2_l hC2_u hSb_l hSb_u (by norm_num) (by norm_num) (by norm_num)
  rw [hrw]
  constructor
  · linarith only [hSa_l, hT_l]
  · linarith only [hSa_u, hT_u]

/-- C1: the haversine distance in miles between (40.7128, -74.0060) and
(40.7111, -74.0080) succeeds and is approximately 0.157 miles, within an
absolute tolerance of 0.01. -/
theorem haversine_store1 :
    haversine ⟨40.7128, -74.0060⟩ ⟨40.7111, -74.0080⟩ .MILES =
      .ok (haversineDist ⟨40.7128, -74.0060⟩ ⟨40.7111, -74.0080⟩ .MILES) ∧
      |haversineDist ⟨40.7128, -74.0060⟩ ⟨40.7111, -74.0080⟩ .MILES - 0.157| ≤ 0.01 := by
  constructor
  · unfold haversine
    rw [if_pos (⟨by constructor <;> norm_num, by constructor <;> norm_num⟩ :
      Coordinate.valid ⟨40.7128, -74.0060⟩ ∧ Coordinate.valid ⟨40.7111, -74.0080⟩)]
  · obtain ⟨hl, hu⟩ := dist_of_hav_bounds ⟨40.7128, -74.0060⟩ ⟨40.7111, -74.0080⟩ .MILES
      3.8427e-10 3.9649e-10 1.9602e-5 1.9913e-5 2e-5
      hav_store1_bounds.1 hav_store1_bounds.2
      (by norm_num) (by norm_num) (by norm_num) (by norm_num)
      (by norm_num) (by norm_num) (by norm_num) (by norm_num) (by norm_num)
    rw [abs_le]
    simp only [earthRadius] at hl hu
    constructor
    · linarith
    · linarith

/-! ### Known-value claim for the farthest store -/

lemma hav_store3_bounds :
    (3.01438e-6 : ℝ) ≤ hav ⟨40.7128, -74.0060⟩ ⟨40.9111, -74.0280⟩ ∧
      hav ⟨40.7128, -74.0060⟩ ⟨40.9111, -74.0280⟩ ≤ 3.01591e-6 := by
  have hpi1 : (3.141592 : ℝ) < Real.pi := Real.pi_gt_d6
  have hpi2 : Real.pi < 3.141593 := Real.pi_lt_d6
  have hrw : hav ⟨40.7128, -74.0060⟩ ⟨40.9111, -74.0280⟩ =
      Real.sin ((40.9111 * (Real.pi / 180) - 40.7128 * (Real.pi / 180)) / 2) ^ 2 +
        Real.cos (40.7128 * (Real.pi / 180)) * Real.cos (40.9111 * (Real.pi / 180)) *
          Real.sin (((-74.0280) * (Real.pi / 180) - (-74.0060) * (Real.pi / 180)) / 2) ^ 2 := rfl
  have hxa_0 : (0 : ℝ) ≤ (40.9111 * (Real.pi / 180) - 40.7128 * (Real.pi / 180)) / 2 := by
    linarith only [hpi1]
  have hxa_l : (1.73049e-3 : ℝ) ≤
      |(40.9111 * (Real.pi / 180) - 40.7128 * (Real.pi / 180)) / 2| := by
    rw [abs_of_nonneg hxa_0]; linarith only [hpi1]
  have hxa_u : |(40.9111 * (Real.pi / 180) - 40.7128 * (Real.pi / 180)) / 2| ≤ 1.7305e-3 := by
    rw [abs_of_nonneg hxa_0]; linarith only [hpi2]
  obtain ⟨hsa_l, hsa_u⟩ := sin_sq_bounds _ 1.73049e-3 1.7305e-3 hxa_l hxa_u
    (by norm_num) (by norm_num) (by norm_num)
  have hSa_l : (2.99459e-6 : ℝ) ≤
      Real.sin ((40.9111 * (Real.pi / 180) - 40.7128 * (Real.pi / 180)) / 2) ^ 2 :=
    le_trans (by norm_num) hsa_l
  have hSa_u : Real.sin ((40.9111 * (Real.pi / 180) - 40.7128 * (Real.pi / 180)) / 2) ^ 2 ≤
      2.99463e-6 := le_trans hsa_u (by norm_num)
  have hphi1_0 : (0 : ℝ) ≤ 40.7128 * (Real.pi / 180) := by linarith only [hpi1]
  have hphi1_l : (0.710572 : ℝ) ≤ |40.7128 * (Real.pi / 180)| := by
    rw [abs_of_nonneg hphi1_0]; linarith only [hpi1]
  have hphi1_u : |40.7128 * (Real.pi / 180)| ≤ 0.710573 := by
    rw [abs_of_nonneg hphi1_0]; linarith only [hpi2]
  obtain ⟨hc1_l, hc1_u⟩ := cos_bounds _ 0.710572 0.710573 hphi1_l hphi1_u
    (by norm_num) (by norm_num)
  have hC1_l : (0.7342 : ℝ) ≤ Real.cos (40.7128 * (Real.pi / 180)) :=
    le_trans (by norm_num) hc1_l
  have hC1_u : Real.cos (40.7128 * (Real.pi / 180)) ≤ 0.7609 :=
    le_trans hc1_u (by norm_num)
  have hphi2_0 : (0 : ℝ) ≤ 40.9111 * (Real.pi / 180) := by linarith only [hpi1]
  have hphi2_l : (0.714033 : ℝ) ≤ |40.9111 * (Real.pi / 180)| := by
    rw [abs_of_nonneg hphi2_0]; linarith only [hpi1]
  have hphi2_u : |40.9111 * (Real.pi / 180)| ≤ 0.714034 := by
    rw [abs_of_nonneg hphi2_0]; linarith only [hpi2]
  obtain ⟨hc2_l, hc2_u⟩ := cos_bounds _ 0.714033 0.714034 hphi2_l hphi2_u
    (by norm_num) (by norm_num)
  have hC2_l : (0.7315 : ℝ) ≤ Real.cos (40.9111 * (Real.pi / 180)) :=
    le_trans (by norm_num) hc2_l
  have hC2_u : Real.cos (40.9111 * (Real.pi / 180)) ≤ 0.7587 :=
    le_trans hc2_u (by norm_num)
  have hxb_neg : ((-74.0280) * (Real.pi / 180) - (-74.0060) * (Real.pi / 180)) / 2 ≤ 0 := by
    linarith only [hpi1]
  have hxb_l : (1.91986e-4 : ℝ) ≤
      |((-74.0280) * (Real.pi / 180) - (-74.0060) * (Real.pi / 180)) / 2| := by
    rw [abs_of_nonpos hxb_neg]; linarith only [hpi1]
  have hxb_u : |((-74.0280) * (Real.pi / 180) - (-74.0060) * (Real.pi / 180)) / 2| ≤
      1.91987e-4 := by
    rw [abs_of_nonpos hxb_neg]; linarith only [hpi2]
  obtain ⟨hsb_l, hsb_u⟩ := sin_sq_bounds _ 1.91986e-4 1.91987e-4 hxb_l hxb_u
    (by norm_num) (by norm_num) (by norm_num)
  have hSb_l : (3.68585e-8 : ℝ) ≤
      Real.sin (((-74.0280) * (Real.pi / 180) - (-74.0060) * (Real.pi / 180)) / 2) ^ 2 :=
    le_trans (by norm_num) hsb_l
  have hSb_u : Real.sin (((-74.0280) * (Real.pi / 180) - (-74.0060) * (Real.pi / 180)) / 2) ^ 2 ≤
      3.68591e-8 := le_trans hsb_u (by norm_num)
  obtain ⟨hT_l, hT_u⟩ := mul3_bounds
    (Real.cos (40.7128 * (Real.pi / 180))) (Real.cos (40.9111 * (Real.pi / 180)))
    (Real.sin (((-74.0280) * (Real.pi / 180) - (-74.0060) * (Real.pi / 180)) / 2) ^ 2)
    0.7342 0.7609 0.7315 0.7587 3.68585e-8 3.68591e-8
    hC1_l hC1_u hC2_l hC2_u hSb_l hSb_u (by norm_num) (by norm_num) (by norm_num)
  rw [hrw]
  constructor
  · linarith only [hSa_l, hT_l]
  · linarith only [hSa_u, hT_u]

/-- C9: the haversine distance in miles between (40.7128, -74.0060) and
(40.9111, -74.0280) succeeds and is approximately 13.75 miles, within an
absolute tolerance of 0.05. -/
theorem haversine_store3 :
    haversine ⟨40.7128, -74.0060⟩ ⟨40.9111, -74.0280⟩ .MILES =
      .ok (haversineDist ⟨40.7128, -74.0060⟩ ⟨40.9111, -74.0280⟩ .MILES) ∧
      |haversineDist ⟨40.7128, -74.0060⟩ ⟨40.9111, -74.0280⟩ .MILES - 13.75| ≤ 0.05 := by
  constructor
  · unfold haversine
    rw [if_pos (⟨by constructor <;> norm_num, by constructor <;> norm_num⟩ :
      Coordinate.valid ⟨40.7128, -74.0060⟩ ∧ Coordinate.valid ⟨40.9111, -74.0280⟩)]
  · obtain ⟨hl, hu⟩ := dist_of_hav_bounds ⟨40.7128, -74.0060⟩ ⟨40.9111, -74.0280⟩ .MILES
      3.01438e-6 3.01591e-6 1.7361e-3 1.7367e-3 1.7368e-3
      hav_store3_bounds.1 hav_store3_bounds.2
      (by norm_num) (by norm_num) (by norm_num) (by norm_num)
      (by norm_num) (by norm_num) (by norm_num) (by norm_num) (by norm_num)
    rw [abs_le]
    simp only [earthRadius] at hl hu
    constructor
    · linarith only [hl]
    · linarith only [hu]
